import Mathlib

/-!
Shallow embedding of the AI response-protocol engine of this repository
(OpenAIResponsesClient.ts and its near-duplicate client variants): the
response-shape parser with its fallback ladder, the structured coercion,
the tool-call detector, the bounded tool-call loop controller, and the
Mermaid diagram-code extractor.

JSON values are modelled by an inductive `Json`; JavaScript `undefined`
(absent field) is modelled by `Option.none` at access sites.  Number
literals are kept as their raw lexemes: no claim under study touches
numeric values.  JavaScript string trimming is modelled over ASCII
whitespace plus NBSP, which covers every input the claims exercise.
-/

inductive Json where
  | null : Json
  | bool : Bool → Json
  | num : String → Json
  | str : String → Json
  | arr : List Json → Json
  | obj : List (String × Json) → Json

def lookupField : List (String × Json) → String → Option Json
  | [], _ => none
  | (k', v) :: rest, k => if k' = k then some v else lookupField rest k

/-- Property access `o[k]` for a non-null receiver; `none` models JS
`undefined` (primitive receivers are boxed and yield `undefined`).
Access on a `null` receiver throws in JS; wherever a claim depends on a
possibly-null receiver, the throw is modeled explicitly by the `…E`
functions below (`parseResponseV2E`, `collectToolCallsE`). -/
def Json.getField : Json → String → Option Json
  | .obj fs, k => lookupField fs k
  | _, _ => none

/-- `typeof o[k] === 'string' ? o[k] : undefined`. -/
def getStr (j : Json) (k : String) : Option String :=
  match j.getField k with
  | some (.str s) => some s
  | _ => none

/-- `typeof v === 'object' && v` (objects and arrays pass; null fails). -/
def Json.isObjLike : Json → Bool
  | .obj _ => true
  | .arr _ => true
  | _ => false

/-- JS truthiness.  Number truthiness is decided on the lexeme, which is
adequate here: no claim routes a number through a truthiness test. -/
def jsTruthy : Json → Bool
  | .null => false
  | .bool b => b
  | .str s => s ≠ ""
  | .num lex => ¬(lex = "0" ∨ lex = "-0" ∨ lex = "0.0")
  | .arr _ => true
  | .obj _ => true

/-- `o.type === t` for a non-null receiver; on a null receiver the
`o.type` access throws, modeled in the `…E` item/entry loops by their
per-element null checks. -/
def typeIs (j : Json) (t : String) : Bool :=
  match getStr j "type" with
  | some s => s = t
  | none => false

/-- The whitespace class used by JS `trim()` and `\s` (ASCII part + NBSP). -/
def jsWs (c : Char) : Bool :=
  c = ' ' ∨ c = '\t' ∨ c = '\n' ∨ c = '\r' ∨ c = '\x0b' ∨ c = '\x0c' ∨ c = ' '

def trimChars (l : List Char) : List Char :=
  (((l.dropWhile jsWs).reverse.dropWhile jsWs)).reverse

/-- JS `String.prototype.trim`. -/
def jsTrim (s : String) : String := String.mk (trimChars s.data)

/-- First whitespace-delimited token: `s.split(/\s+/)[0] ?? ''`
(the callers only apply this to already-trimmed strings). -/
def headToken (s : String) : String :=
  String.mk (s.data.takeWhile (fun c => !jsWs c))

/-! ## Diagram-Code Extractor (`extractMermaid`)

The three regex stages of `extractMermaid` are modelled as explicit
scans over the character list, with per-position match attempts in
source order, mirroring the left-to-right search of `RegExp.exec`. -/

/-- Case-insensitive `startsWith` (the pattern is given lowercased). -/
def lcStartsWith (pat : List Char) (l : List Char) : Bool :=
  pat.isPrefixOf (l.map Char.toLower)

/-- Lazy search for the (lowercased) token `pat`: returns the text before
the first case-insensitive occurrence and the text after it. -/
def takeUntilTok (pat : List Char) : List Char → Option (List Char × List Char)
  | [] => none
  | c :: cs =>
    if lcStartsWith pat (c :: cs) then some ([], (c :: cs).drop pat.length)
    else
      match takeUntilTok pat cs with
      | some (b, r) => some (c :: b, r)
      | none => none

def fence3 : List Char := "```".data

/-- All generic fenced blocks of `/```([\s\S]*?)```/g`, in match order.
Each step strictly shortens the remaining text, so fuel equal to the
input length (as supplied by `scanFences`) never runs out. -/
def scanFencesF : Nat → List Char → List (List Char)
  | 0, _ => []
  | _, [] => []
  | Nat.succ fuel, c :: cs =>
    if lcStartsWith fence3 (c :: cs) then
      match takeUntilTok fence3 ((c :: cs).drop 3) with
      | some (content, rest) => content :: scanFencesF fuel rest
      | none => []
    else scanFencesF fuel cs

def scanFences (l : List Char) : List (List Char) := scanFencesF l.length l

/-- One attempt of `/```(?:mermaid)\s*([\s\S]*?)```/i` anchored at `l`. -/
def tryMermaidFenceAt (l : List Char) : Option (List Char) :=
  if lcStartsWith "```mermaid".data l then
    match takeUntilTok fence3 ((l.drop 10).dropWhile jsWs) with
    | some (content, _) => some content
    | none => none
  else none

def mermaidFenceCapture : List Char → Option (List Char)
  | [] => none
  | c :: cs =>
    match tryMermaidFenceAt (c :: cs) with
    | some r => some r
    | none => mermaidFenceCapture cs

/-- One attempt of `/<mermaid[^>]*>([\s\S]*?)<\/mermaid>/i` anchored at `l`. -/
def tryTagAt (l : List Char) : Option (List Char) :=
  if lcStartsWith "<mermaid".data l then
    let rest := (l.drop 8).dropWhile (fun c => c ≠ '>')
    match rest with
    | '>' :: rest2 =>
      match takeUntilTok "</mermaid>".data rest2 with
      | some (content, _) => some content
      | none => none
    | _ => none
  else none

def tagCapture : List Char → Option (List Char)
  | [] => none
  | c :: cs =>
    match tryTagAt (c :: cs) with
    | some r => some r
    | none => tagCapture cs

/-- The keyword alternatives of the generic-fence sniffing regex, verbatim
from the source (note the mixed-case `stateDiagram-v2` literal). -/
def mermaidHeadKeywords : List String :=
  ["graph", "flowchart", "sequencediagram", "classdiagram", "statediagram",
   "stateDiagram-v2", "erdiagram", "gantt", "journey", "gitgraph", "pie"]

def isLikelyMermaid (code : String) : Bool :=
  mermaidHeadKeywords.contains (String.mk ((headToken code).data.map Char.toLower))

def genericFenceScan (s : String) : Option String :=
  (scanFences s.data).findSome? (fun content =>
    let code := jsTrim (String.mk content)
    if isLikelyMermaid code then some code else none)

def tagStage (s : String) : Option String :=
  match tagCapture s.data with
  | some content => if content.isEmpty then none else some (jsTrim (String.mk content))
  | none => none

def extractMermaid (s : String) : Option String :=
  if s = "" then none
  else
    let fenceHit :=
      match mermaidFenceCapture s.data with
      | some content => if content.isEmpty then none else some (jsTrim (String.mk content))
      | none => none
    match fenceHit with
    | some r => some r
    | none =>
      match genericFenceScan s with
      | some code => some code
      | none => tagStage s

/-! ## `JSON.parse` / `JSON.stringify`

An executable model of the JSON text grammar, used by `safeParseJSON`,
`safeParseV2` and the tool-output encoder.  Number literals are
validated against the JSON grammar but kept as raw lexemes.  The
recursion over nested values is driven by a fuel argument that the
top-level entry point sets high enough for any input of its length. -/

def hexVal (c : Char) : Option Nat :=
  if '0' ≤ c ∧ c ≤ '9' then some (c.toNat - '0'.toNat)
  else if 'a' ≤ c ∧ c ≤ 'f' then some (c.toNat - 'a'.toNat + 10)
  else if 'A' ≤ c ∧ c ≤ 'F' then some (c.toNat - 'A'.toNat + 10)
  else none

def escChar (e : Char) : Option Char :=
  if e = '"' then some '"'
  else if e = '\\' then some '\\'
  else if e = '/' then some '/'
  else if e = 'b' then some (Char.ofNat 8)
  else if e = 'f' then some (Char.ofNat 12)
  else if e = 'n' then some '\n'
  else if e = 'r' then some '\r'
  else if e = 't' then some '\t'
  else none

/-- Body of a JSON string literal, after the opening quote; returns the
decoded characters and the rest of the input after the closing quote. -/
def parseStrBody : List Char → Option (List Char × List Char)
  | [] => none
  | c :: cs =>
    if c = '"' then some ([], cs)
    else if c = '\\' then
      match cs with
      | [] => none
      | e :: cs2 =>
        if e = 'u' then
          match cs2 with
          | a :: b :: c3 :: d :: cs3 =>
            match hexVal a, hexVal b, hexVal c3, hexVal d with
            | some ha, some hb, some hc, some hd =>
              match parseStrBody cs3 with
              | some (acc, r) => some (Char.ofNat (((ha * 16 + hb) * 16 + hc) * 16 + hd) :: acc, r)
              | none => none
            | _, _, _, _ => none
          | _ => none
        else
          match escChar e with
          | some ch =>
            match parseStrBody cs2 with
            | some (acc, r) => some (ch :: acc, r)
            | none => none
          | none => none
    else if c.toNat < 32 then none
    else
      match parseStrBody cs with
      | some (acc, r) => some (c :: acc, r)
      | none => none

/-- A JSON number literal: `-?(0|[1-9][0-9]*)(\.[0-9]+)?([eE][+-]?[0-9]+)?`.
The lexeme is kept verbatim. -/
def parseJsonNum (l : List Char) : Option (Json × List Char) :=
  let (neg, l1) := match l with
    | '-' :: r => (['-'], r)
    | _ => (([] : List Char), l)
  let intPart := l1.takeWhile Char.isDigit
  if intPart = [] then none
  else if intPart.length > 1 ∧ intPart.headD '0' = '0' then none
  else
    let l2 := l1.drop intPart.length
    let (fracPart, l3) := match l2 with
      | '.' :: r =>
        let ds := r.takeWhile Char.isDigit
        if ds = [] then (([] : List Char), l2) else ('.' :: ds, r.drop ds.length)
      | _ => ([], l2)
    if l2 ≠ l3 ∨ fracPart = [] then
      let (expPart, l4) := match l3 with
        | e :: r =>
          if e = 'e' ∨ e = 'E' then
            let (sgn, r2) := match r with
              | s :: r2 => if s = '+' ∨ s = '-' then ([s], r2) else (([] : List Char), r)
              | [] => ([], r)
            let ds := r2.takeWhile Char.isDigit
            if ds = [] then (([] : List Char), l3) else (e :: (sgn ++ ds), r2.drop ds.length)
          else ([], l3)
        | [] => ([], l3)
      if (l3 ≠ l4 ∨ expPart = []) then
        some (Json.num (String.mk (neg ++ intPart ++ fracPart ++ expPart)), l4)
      else none
    else none

/-- JSON whitespace (the grammar's own class, narrower than `\s`). -/
def skipJWs (l : List Char) : List Char :=
  l.dropWhile (fun c => c = ' ' ∨ c = '\t' ∨ c = '\n' ∨ c = '\r')

/-- Later duplicate keys overwrite earlier ones, as in `JSON.parse`. -/
def insertField (fs : List (String × Json)) (k : String) (v : Json) : List (String × Json) :=
  if fs.any (fun p => p.1 = k) then
    fs.map (fun p => if p.1 = k then (k, v) else p)
  else fs ++ [(k, v)]

mutual

def parseJsonV : Nat → List Char → Option (Json × List Char)
  | 0, _ => none
  | Nat.succ fuel, l =>
    match skipJWs l with
    | [] => none
    | c :: cs =>
      if c = '"' then
        match parseStrBody cs with
        | some (acc, r) => some (.str (String.mk acc), r)
        | none => none
      else if c = Char.ofNat 123 then
        match skipJWs cs with
        | Char.ofNat 125 :: r => some (.obj [], r)
        | l2 => parseMembers fuel l2 []
      else if c = '[' then
        match skipJWs cs with
        | ']' :: r => some (.arr [], r)
        | l2 => parseItems fuel l2 []
      else if "true".data.isPrefixOf (c :: cs) then some (.bool true, (c :: cs).drop 4)
      else if "false".data.isPrefixOf (c :: cs) then some (.bool false, (c :: cs).drop 5)
      else if "null".data.isPrefixOf (c :: cs) then some (.null, (c :: cs).drop 4)
      else parseJsonNum (c :: cs)

def parseMembers : Nat → List Char → List (String × Json) → Option (Json × List Char)
  | 0, _, _ => none
  | Nat.succ fuel, l, acc =>
    match skipJWs l with
    | '"' :: cs =>
      match parseStrBody cs with
      | some (k, r1) =>
        match skipJWs r1 with
        | ':' :: r2 =>
          match parseJsonV fuel r2 with
          | some (v, r3) =>
            let acc2 := insertField acc (String.mk k) v
            match skipJWs r3 with
            | ',' :: r4 => parseMembers fuel r4 acc2
            | Char.ofNat 125 :: r4 => some (.obj acc2, r4)
            | _ => none
          | none => none
        | _ => none
      | none => none
    | _ => none

def parseItems : Nat → List Char → List Json → Option (Json × List Char)
  | 0, _, _ => none
  | Nat.succ fuel, l, acc =>
    match parseJsonV fuel l with
    | some (v, r1) =>
      match skipJWs r1 with
      | ',' :: r2 => parseItems fuel r2 (acc ++ [v])
      | ']' :: r2 => some (.arr (acc ++ [v]), r2)
      | _ => none
    | none => none

end

/-- `JSON.parse`: `none` models a thrown `SyntaxError`. -/
def jsonParse (s : String) : Option Json :=
  match parseJsonV (s.length * 2 + 8) s.data with
  | some (v, r) => if skipJWs r = [] then some v else none
  | none => none

/-- Escaping for one character of a `JSON.stringify` string value. -/
def jsonEscapeChar (c : Char) : List Char :=
  if c = '"' then ['\\', '"']
  else if c = '\\' then ['\\', '\\']
  else if c = '\n' then ['\\', 'n']
  else if c = '\r' then ['\\', 'r']
  else if c = '\t' then ['\\', 't']
  else if c.toNat = 8 then ['\\', 'b']
  else if c.toNat = 12 then ['\\', 'f']
  else if c.toNat < 32 then
    let hexDigit := fun (n : Nat) => if n < 10 then Char.ofNat ('0'.toNat + n) else Char.ofNat ('a'.toNat + n - 10)
    ['\\', 'u', '0', '0', hexDigit (c.toNat / 16), hexDigit (c.toNat % 16)]
  else [c]

def jsonEncodeStr (s : String) : String :=
  "\"" ++ String.mk (s.data.flatMap jsonEscapeChar) ++ "\""

/-! ## Response Shape Parser (`parseResponseV2` and the Azure variant) -/

/-- The `{ text, mermaid? }` shape produced by the coercion helpers. -/
structure ParsedV2 where
  text : String
  mermaid : Option String
deriving DecidableEq, Repr

/-- `AssistantResult`: `mermaid` is the spec's `diagramDefinition`. -/
structure AssistantResult where
  text : String
  mermaid : Option String
  raw : Json

/-- `coerceV2` from OpenAIResponsesClient.ts: canonical keys first
(`text`/`mermaid`), then the synonyms (`answer`, nested `diagram.mermaid`). -/
def nestedMermaid (j : Json) : Option String :=
  match j.getField "diagram" with
  | some d =>
    if d.isObjLike then
      match getStr d "mermaid" with
      | some m => some (jsTrim m)
      | none => none
    else none
  | none => none

def coerceV2 (j : Json) : ParsedV2 :=
  let text :=
    match getStr j "text" with
    | some t => t
    | none =>
      match getStr j "answer" with
      | some a => a
      | none => ""
  let mermaid :=
    match getStr j "mermaid" with
    | some m => if jsTrim m ≠ "" then some (jsTrim m) else nestedMermaid j
    | none => nestedMermaid j
  ⟨text, mermaid⟩

/-- `coerceStructured` from the part_002 client variant: same `text`
handling, but a truthiness test on the *untrimmed* `mermaid` string. -/
def coerceStructured (j : Json) : ParsedV2 :=
  let text :=
    match getStr j "text" with
    | some t => t
    | none => ""
  let mermaid :=
    match getStr j "mermaid" with
    | some m => if m ≠ "" ∧ jsTrim m ≠ "" then some m else none
    | none => none
  ⟨text, mermaid⟩

/-- `stripCodeFences`: the anchored `/^```(?:json)?\s*([\s\S]*?)```$/i`. -/
def stripCodeFences (s : String) : String :=
  let l := s.data
  if lcStartsWith fence3 l then
    let rest := l.drop 3
    let rest := if lcStartsWith "json".data rest then rest.drop 4 else rest
    let rest := rest.dropWhile jsWs
    if fence3.isSuffixOf rest then jsTrim (String.mk (rest.take (rest.length - 3)))
    else jsTrim s
  else jsTrim s

/-- `safeParseV2`: JSON-coercion attempt on a text chunk. -/
def safeParseV2 (s : String) : Option ParsedV2 :=
  if s = "" then none
  else
    let un := stripCodeFences s
    if un = "" then none
    else
      match un.data with
      | c :: _ =>
        if c ≠ Char.ofNat 123 then none
        else
          match jsonParse un with
          | some j => some (coerceV2 j)
          | none => none
      | [] => none

/-- `Array.isArray(o.output) ? o.output : []` for a non-null root; on a
null root the `o.output` access throws, modeled in `parseResponseV2E` /
`collectToolCallsE` by their leading null check. -/
def getOutputArray (o : Json) : List Json :=
  match o.getField "output" with
  | some (.arr xs) => xs
  | _ => []

/-- Content entries of a `message` item (`[]` unless `type === 'message'`
and `content` is an array). -/
def msgContent (i : Json) : List Json :=
  if typeIs i "message" then
    match i.getField "content" with
    | some (.arr cs) => cs
    | _ => []
  else []

/-- Stage-1 treatment of one content entry in `parseResponseV2`:
`output_json` entries coerce and return unconditionally; `output_text`
entries return only when `safeParseV2` succeeds. -/
def scanEntryV2 (cc : Json) : Option ParsedV2 :=
  if typeIs cc "output_json" then
    match cc.getField "json" with
    | some j => if j.isObjLike then some (coerceV2 j) else none
    | none => none
  else if typeIs cc "output_text" then
    match getStr cc "text" with
    | some t => safeParseV2 t
    | none => none
  else none

def scanStructuredV2 (o : Json) : Option ParsedV2 :=
  (getOutputArray o).findSome? (fun i => (msgContent i).findSome? scanEntryV2)

/-- Stage-3 stitching of all plain `output_text` chunks, in order. -/
def textChunks (o : Json) : String :=
  String.join ((getOutputArray o).map (fun i =>
    String.join ((msgContent i).map (fun cc =>
      if typeIs cc "output_text" then
        match getStr cc "text" with
        | some t => t
        | none => ""
      else ""))))

/-- `parseResponseV2` of OpenAIResponsesClient.ts: the fallback ladder,
on the inputs where no property access has a null receiver; the
TypeError paths are modeled by `parseResponseV2E` below. -/
def parseResponseV2 (o : Json) : AssistantResult :=
  match scanStructuredV2 o with
  | some p => ⟨p.text, p.mermaid, o⟩
  | none =>
    let agg :=
      match getStr o "output_text" with
      | some t => t
      | none => ""
    if agg ≠ "" then
      match safeParseV2 agg with
      | some p => ⟨p.text, p.mermaid, o⟩
      | none => ⟨agg, extractMermaid agg, o⟩
    else
      let combined := textChunks o
      match safeParseV2 combined with
      | some p => ⟨p.text, p.mermaid, o⟩
      | none => ⟨combined, extractMermaid combined, o⟩

/-- Stage-1 treatment of one content entry in `AzureOpenAIClient.parseResponse`
(part_001): no coercion synonyms, and the entry returns only when
`text` or `mermaid` is truthy. -/
def azureScanEntry (cc : Json) : Option ParsedV2 :=
  if typeIs cc "output_json" then
    match cc.getField "json" with
    | some j =>
      if j.isObjLike then
        let text :=
          match getStr j "text" with
          | some t => t
          | none => ""
        let mermaid := getStr j "mermaid"
        let mermaidTruthy : Bool :=
          match mermaid with
          | some m => m ≠ ""
          | none => false
        if text ≠ "" ∨ mermaidTruthy = true then some ⟨text, mermaid⟩ else none
      else none
    | none => none
  else none

/-- `AzureOpenAIClient.parseResponse` (part_001): conditional stage-1
return, aggregated text, stitched chunks; no JSON re-parse attempts. -/
def parseResponseAzure (o : Json) : AssistantResult :=
  match (getOutputArray o).findSome? (fun i => (msgContent i).findSome? azureScanEntry) with
  | some p => ⟨p.text, p.mermaid, o⟩
  | none =>
    let agg :=
      match getStr o "output_text" with
      | some t => t
      | none => ""
    if agg ≠ "" then ⟨agg, extractMermaid agg, o⟩
    else
      let combined := textChunks o
      ⟨combined, extractMermaid combined, o⟩

/-! ## Tool-Call Detector (`collectToolCalls`) -/

/-- `ToolCall` record: the collector always sets `call_id := id`. -/
structure ToolCall where
  id : String
  name : String
  arguments : String
  call_id : String
deriving DecidableEq, Repr

/-- Top-level `function_call` item: the id prefers `call_id` and falls
back to `id`; empty id or name drops the record. -/
def topToolCall (i : Json) : Option ToolCall :=
  let id :=
    match getStr i "call_id" with
    | some c => if c ≠ "" then c else
        match getStr i "id" with
        | some g => g
        | none => ""
    | none =>
      match getStr i "id" with
      | some g => g
      | none => ""
  let name :=
    match getStr i "name" with
    | some n => n
    | none => ""
  let args :=
    match getStr i "arguments" with
    | some a => a
    | none => ""
  if id ≠ "" ∧ name ≠ "" then some ⟨id, name, args, id⟩ else none

/-- `cc.function?.k` (string-valued). -/
def fnField (cc : Json) (k : String) : Option String :=
  match cc.getField "function" with
  | some f => getStr f k
  | none => none

/-- Nested `tool_call` entry under a message's content: flat field layout
with a `function`-object fallback for name/arguments. -/
def nestedToolCall (cc : Json) : Option ToolCall :=
  if typeIs cc "tool_call" then
    let id :=
      match getStr cc "id" with
      | some i => i
      | none => ""
    let name :=
      match getStr cc "name" with
      | some n => n
      | none =>
        match fnField cc "name" with
        | some n => n
        | none => ""
    let args :=
      match getStr cc "arguments" with
      | some a => a
      | none =>
        match fnField cc "arguments" with
        | some a => a
        | none => ""
    if id ≠ "" ∧ name ≠ "" then some ⟨id, name, args, id⟩ else none
  else none

def collectFromItem (i : Json) : List ToolCall :=
  if typeIs i "function_call" then
    match topToolCall i with
    | some tc => [tc]
    | none => []
  else (msgContent i).filterMap nestedToolCall

/-- `collectToolCalls`: scan the output collection in order, on the
inputs where no property access has a null receiver; the TypeError
paths are modeled by `collectToolCallsE` below. -/
def collectToolCalls (j : Json) : List ToolCall :=
  ((getOutputArray j).map collectFromItem).flatten

/-! ## Tool-Call Loop Controller (`chat`) -/

/-- The fallback on a nested `response.id` inside `getResponseId`. -/
def nestedAnchor (j : Json) : Option String :=
  match j.getField "response" with
  | some r =>
    if jsTruthy r then
      match getStr r "id" with
      | some ri => if ri ≠ "" then some ri else none
      | none => none
    else none
  | none => none

/-- `getResponseId`: `none` models the thrown continuation-anchor error. -/
def getResponseId (j : Json) : Option String :=
  match getStr j "id" with
  | some i => if i ≠ "" then some i else nestedAnchor j
  | none => nestedAnchor j

/-- `safeParseJSON`: parse failure degrades to the empty object. -/
def safeParseJSON (s : String) : Json :=
  match jsonParse s with
  | some j => j
  | none => Json.obj []

mutual

/-- JS `String(v)` (array elements render `null`/`undefined` as empty). -/
def jsToStr : Json → String
  | .null => "null"
  | .bool true => "true"
  | .bool false => "false"
  | .num lex => lex
  | .str s => s
  | .arr xs => jsArrStr xs
  | .obj _ => "[object Object]"

def jsArrStr : List Json → String
  | [] => ""
  | [x] => jsArrElem x
  | x :: rest => jsArrElem x ++ "," ++ jsArrStr rest

def jsArrElem : Json → String
  | .null => ""
  | j => jsToStr j

end

/-- `String(args.kind ?? '')` applied to a field lookup. -/
def kindString : Option Json → String
  | none => ""
  | some .null => ""
  | some j => jsToStr j

/-- The extracted topic argument of one tool call. -/
def kindOf (tc : ToolCall) : String :=
  kindString ((safeParseJSON tc.arguments).getField "kind")

/-- The caller-supplied documentation lookup result. -/
structure DocsResult where
  syntaxDoc : String
  sourceUrl : String
deriving DecidableEq, Repr

/-- `JSON.stringify({ syntaxDoc, sourceUrl })`. -/
def stringifyDocs (d : DocsResult) : String :=
  "\x7b" ++ jsonEncodeStr "syntaxDoc" ++ ":" ++ jsonEncodeStr d.syntaxDoc ++ ","
    ++ jsonEncodeStr "sourceUrl" ++ ":" ++ jsonEncodeStr d.sourceUrl ++ "\x7d"

/-- A `FunctionCallOutputItem` of the continuation body. -/
structure ContinuationItem where
  type : String
  call_id : String
  output : String
deriving DecidableEq, Repr

/-- A continuation request body: anchor plus the flat typed input items
(tool outputs only — the calls themselves are never echoed back). -/
structure ContinuationRequest where
  previous_response_id : String
  input : List ContinuationItem
deriving DecidableEq, Repr

/-- One tool output item: `call_id` is `tc.call_id || tc.id`, `output`
the JSON-encoded handler result. -/
def toolOutputFor (h : String → DocsResult) (tc : ToolCall) : ContinuationItem :=
  ⟨"function_call_output", if tc.call_id ≠ "" then tc.call_id else tc.id,
    stringifyDocs (h (kindOf tc))⟩

def roundItems (h : String → DocsResult) (calls : List ToolCall) : List ContinuationItem :=
  calls.map (toolOutputFor h)

/-- The bounded tool loop of `chat`.  `svc` abstracts the continuation
POST (`postCreate`); the handler is the caller-supplied docs lookup;
`acc` accumulates the continuation requests issued so far (newest first)
so the controller's outward behavior is fully observable.  The `.error`
branch models the thrown continuation-anchor error. -/
def runToolLoop (svc : ContinuationRequest → Json) (handler : Option (String → DocsResult)) :
    Nat → Json → List ContinuationRequest → Except String (Json × List ContinuationRequest)
  | 0, current, acc => .ok (current, acc.reverse)
  | Nat.succ n, current, acc =>
    match handler with
    | none => .ok (current, acc.reverse)
    | some h =>
      match collectToolCalls current with
      | [] => .ok (current, acc.reverse)
      | c :: cs =>
        match getResponseId current with
        | none => .error "Missing response.id when continuing tool calls"
        | some anchor =>
          let req : ContinuationRequest := ⟨anchor, roundItems h (c :: cs)⟩
          runToolLoop svc handler n (svc req) (req :: acc)

/-- `chat` from the initial response `r0` onward (request construction
and transport are out of scope): at most 3 continuation rounds, then the
final parse.  Returns the result together with the issued continuation
requests; `.error` models a rejected promise. -/
def chat (svc : ContinuationRequest → Json) (handler : Option (String → DocsResult))
    (r0 : Json) : Except String (AssistantResult × List ContinuationRequest) :=
  match runToolLoop svc handler 3 r0 [] with
  | .ok (final, reqs) => .ok (parseResponseV2 final, reqs)
  | .error e => .error e

/-! ## Concrete fixtures used by the claim theorems and their witnesses -/

/-- An `output_json` content entry. -/
def ojEntry (p : Json) : Json := Json.obj [("type", Json.str "output_json"), ("json", p)]

/-- A `message` output item with the given content entries. -/
def msgOf (cs : List Json) : Json := Json.obj [("type", Json.str "message"), ("content", Json.arr cs)]

/-- A response whose `output` is the given item list. -/
def respWith (outs : List Json) : Json := Json.obj [("output", Json.arr outs)]

/-- A response with an `id` anchor and the given output items. -/
def respWithId (anchor : String) (outs : List Json) : Json :=
  Json.obj [("id", Json.str anchor), ("output", Json.arr outs)]

/-- Response carrying one already-canonical structured payload. -/
def structuredResp (t d : String) : Json :=
  respWith [msgOf [ojEntry (Json.obj [("text", Json.str t), ("mermaid", Json.str d)])]]

/-- Two structured entries: the first coerces to empty text and no
diagram, the second carries text `"hi"`. -/
def respC1 : Json :=
  respWith [msgOf [ojEntry (Json.obj []), ojEntry (Json.obj [("text", Json.str "hi")])]]

/-- A top-level `function_call` output item with optional `call_id` and
`id` fields. -/
def fnCallJson (cid gid : Option String) (name args : String) : Json :=
  Json.obj ([("type", Json.str "function_call")]
    ++ (match cid with | some c => [("call_id", Json.str c)] | none => [])
    ++ (match gid with | some g => [("id", Json.str g)] | none => [])
    ++ [("name", Json.str name), ("arguments", Json.str args)])

def docsHandlerEx : String → DocsResult := fun _ => ⟨"doc", "url"⟩

def callItemEx : Json := fnCallJson (some "call_1") none "get_docs" "\x7b\"kind\":\"flowchart\"\x7d"

def tcEx : ToolCall := ⟨"call_1", "get_docs", "\x7b\"kind\":\"flowchart\"\x7d", "call_1"⟩

/-- A response with an anchor and one pending tool call. -/
def pendingRespEx : Json := respWithId "resp_0" [callItemEx]

/-- A response with no pending tool calls. -/
def quietRespEx : Json := respWith []

def svcQuiet : ContinuationRequest → Json := fun _ => quietRespEx

def svcPending : ContinuationRequest → Json := fun _ => pendingRespEx

/-- Pending tool call but neither `id` nor nested `response.id`. -/
def anchorlessResp : Json := respWith [callItemEx]

/-- Pending tool call whose arguments string is not valid JSON. -/
def malResp : Json := respWithId "resp_0" [fnCallJson (some "call_1") none "get_docs" "not json"]

/-- The continuation request `chat` issues from `pendingRespEx`. -/
def reqEx : ContinuationRequest :=
  ⟨"resp_0", [⟨"function_call_output", "call_1",
    "\x7b\"syntaxDoc\":\"doc\",\"sourceUrl\":\"url\"\x7d"⟩]⟩

/-- "No leading or trailing whitespace" for a string. -/
def noEdgeWs (s : String) : Prop :=
  (∀ c, s.data.head? = some c → jsWs c = false) ∧
  (∀ c, s.data.getLast? = some c → jsWs c = false)

/-! ## Thrown TypeErrors of the parser and the detector

JS property access on a `null` receiver throws a TypeError.  Both
`parseResponseV2` and `collectToolCalls` read `o.output` on the root
(lines 143/186 and 200), `i.type` on every visited output item (lines
145 and 206) and `cc.type` on every visited content entry of a message
item (lines 148/152 and 218) without a null guard, so a null root, a
null output item, or a null message-content entry makes them throw
(primitive receivers are boxed and merely yield `undefined`; all other
receivers in these functions are guarded before access).  The `…E`
functions below model this: `none` is a thrown TypeError, `some` the
returned value; the total `parseResponseV2`/`collectToolCalls` above
describe the source on the inputs where no access throws. -/

def Json.isNull : Json → Bool
  | .null => true
  | _ => false

/-- A non-null output item all of whose message-content entries are
non-null: no receiver this item contributes is null. -/
def itemNullFree (i : Json) : Bool :=
  !i.isNull && (msgContent i).all (fun cc => !cc.isNull)

/-- No null receiver anywhere the scans read: non-null root, non-null
output items, non-null message-content entries. -/
def respNullFree (o : Json) : Bool :=
  !o.isNull && (getOutputArray o).all itemNullFree

/-- Stage-1 content-entry loop with the `cc.type` throw on null entries. -/
def scanEntriesE : List Json → Option (Option ParsedV2)
  | [] => some none
  | cc :: rest =>
    if cc.isNull then none
    else
      match scanEntryV2 cc with
      | some p => some (some p)
      | none => scanEntriesE rest

/-- Stage-1 output-item loop with the `i.type` throw on null items. -/
def scanItemsE : List Json → Option (Option ParsedV2)
  | [] => some none
  | i :: rest =>
    if i.isNull then none
    else
      match scanEntriesE (msgContent i) with
      | none => none
      | some (some p) => some (some p)
      | some none => scanItemsE rest

/-- `parseResponseV2` with its TypeError paths made explicit: `none`
models a throw (`o.output` on a null root, `i.type` on a null output
item, `cc.type` on a null content entry).  Stages 2 and 3 only revisit
receivers stage 1 already read without throwing, so they add no new
throw sites. -/
def parseResponseV2E (o : Json) : Option AssistantResult :=
  if o.isNull then none
  else
    match scanItemsE (getOutputArray o) with
    | none => none
    | some (some p) => some ⟨p.text, p.mermaid, o⟩
    | some none =>
      let agg :=
        match getStr o "output_text" with
        | some t => t
        | none => ""
      if agg ≠ "" then
        match safeParseV2 agg with
        | some p => some ⟨p.text, p.mermaid, o⟩
        | none => some ⟨agg, extractMermaid agg, o⟩
      else
        let combined := textChunks o
        match safeParseV2 combined with
        | some p => some ⟨p.text, p.mermaid, o⟩
        | none => some ⟨combined, extractMermaid combined, o⟩

/-- Detector content-entry loop with the `cc.type` throw on null entries. -/
def collectEntriesE : List Json → Option (List ToolCall)
  | [] => some []
  | cc :: rest =>
    if cc.isNull then none
    else
      match collectEntriesE rest with
      | some l =>
        some ((match nestedToolCall cc with
          | some tc => [tc]
          | none => []) ++ l)
      | none => none

/-- Detector output-item loop with the `i.type` throw on null items. -/
def collectItemsE : List Json → Option (List ToolCall)
  | [] => some []
  | i :: rest =>
    if i.isNull then none
    else
      let here : Option (List ToolCall) :=
        if typeIs i "function_call" then
          some (match topToolCall i with
            | some tc => [tc]
            | none => [])
        else collectEntriesE (msgContent i)
      match here, collectItemsE rest with
      | some a, some b => some (a ++ b)
      | _, _ => none

/-- `collectToolCalls` with its TypeError paths made explicit
(`none` = thrown TypeError). -/
def collectToolCallsE (j : Json) : Option (List ToolCall) :=
  if j.isNull then none
  else collectItemsE (getOutputArray j)

/-! ## Helper lemmas -/

theorem head?_dropWhile (p : Char → Bool) :
    ∀ (l : List Char) (c : Char), (l.dropWhile p).head? = some c → p c = false := by
  intro l
  induction l with
  | nil => intro c h; simp [List.dropWhile] at h
  | cons a as ih =>
    intro c h
    rw [List.dropWhile_cons] at h
    by_cases hpa : p a = true
    · rw [if_pos hpa] at h; exact ih c h
    · rw [if_neg hpa] at h
      simp at h
      subst h
      simpa using hpa

theorem getLast?_of_suffix {l₁ l₂ : List Char} (h : l₁ <:+ l₂) (hne : l₁ ≠ []) :
    l₂.getLast? = l₁.getLast? := by
  obtain ⟨pre, rfl⟩ := h
  exact List.getLast?_append_of_ne_nil pre hne

theorem trimChars_head {l : List Char} {c : Char} (h : (trimChars l).head? = some c) :
    jsWs c = false := by
  unfold trimChars at h
  rw [List.head?_reverse] at h
  have hne : (l.dropWhile jsWs).reverse.dropWhile jsWs ≠ [] := by
    intro hnil; rw [hnil] at h; simp at h
  have h2 := getLast?_of_suffix (List.dropWhile_suffix jsWs) hne
  rw [← h2, List.getLast?_reverse] at h
  exact head?_dropWhile jsWs _ c h

theorem trimChars_getLast {l : List Char} {c : Char} (h : (trimChars l).getLast? = some c) :
    jsWs c = false := by
  unfold trimChars at h
  rw [List.getLast?_reverse] at h
  exact head?_dropWhile jsWs _ c h

theorem jsTrim_noEdgeWs (s : String) : noEdgeWs (jsTrim s) := by
  constructor
  · intro c h; exact trimChars_head h
  · intro c h; exact trimChars_getLast h

theorem nestedMermaid_some {j : Json} {s : String} (h : nestedMermaid j = some s) :
    ∃ m, s = jsTrim m := by
  unfold nestedMermaid at h
  split at h
  · split at h
    · split at h
      · exact ⟨_, (Option.some.inj h).symm⟩
      · exact absurd h (by simp)
    · exact absurd h (by simp)
  · exact absurd h (by simp)

theorem coerceV2_mermaid_trimmed {j : Json} {s : String}
    (h : (coerceV2 j).mermaid = some s) : ∃ m, s = jsTrim m := by
  simp only [coerceV2] at h
  split at h
  · split at h
    · exact ⟨_, (Option.some.inj h).symm⟩
    · exact nestedMermaid_some h
  · exact nestedMermaid_some h

/-! ## Claim theorems -/

/-- C10, counterexample: a whitespace-only nested `diagram.mermaid`
coerces (via `coerceV2`) to a *present empty-string* diagram definition,
and `coerceStructured` (part_002 variant) keeps the original untrimmed
string — both contradict the claimed invariant. -/
theorem c10_counterexample :
    coerceV2 (Json.obj [("diagram", Json.obj [("mermaid", Json.str "   ")])]) =
      ⟨"", some ""⟩ ∧
    coerceStructured (Json.obj [("mermaid", Json.str " D ")]) = ⟨"", some " D "⟩ :=
  ⟨rfl, rfl⟩

/-- C10, amended: `coerceV2`'s diagram is always a trimmed string (no
leading/trailing whitespace) and a non-blank flat `mermaid` field yields
its non-empty trim, while a blank flat field with no nested `diagram`
object yields no diagram; but the nested path can produce an empty
string (see the counterexample).  `coerceStructured`'s diagram is
non-blank but possibly untrimmed. -/
theorem c10_amended :
    (∀ j s, (coerceV2 j).mermaid = some s → noEdgeWs s) ∧
    (∀ j m, getStr j "mermaid" = some m → jsTrim m ≠ "" →
      (coerceV2 j).mermaid = some (jsTrim m)) ∧
    (∀ j m, getStr j "mermaid" = some m → jsTrim m = "" →
      j.getField "diagram" = none → (coerceV2 j).mermaid = none) ∧
    (∀ j s, (coerceStructured j).mermaid = some s → s ≠ "" ∧ jsTrim s ≠ "") := by
  refine ⟨?_, ?_, ?_, ?_⟩
  · intro j s h
    obtain ⟨m, rfl⟩ := coerceV2_mermaid_trimmed h
    exact jsTrim_noEdgeWs m
  · intro j m hm ht
    simp only [coerceV2]
    rw [hm]
    simp [ht]
  · intro j m hm ht hd
    simp only [coerceV2]
    rw [hm]
    simp [ht]
    unfold nestedMermaid
    rw [hd]
  · intro j s h
    simp only [coerceStructured] at h
    split at h
    · split at h
      · rename_i hcond
        cases Option.some.inj h
        exact ⟨hcond.1, hcond.2⟩
      · exact absurd h (by simp)
    · exact absurd h (by simp)

/-- C10, witness for the amended claim at concrete inputs. -/
theorem c10_amended_witness :
    noEdgeWs "D" ∧
    (coerceV2 (Json.obj [("mermaid", Json.str " D ")])).mermaid = some "D" ∧
    (coerceV2 (Json.obj [("mermaid", Json.str "   ")])).mermaid = none ∧
    ("x" ≠ "" ∧ jsTrim "x" ≠ "") := by
  refine ⟨?_, ?_, ?_, ?_⟩
  · exact c10_amended.1 (Json.obj [("mermaid", Json.str " D ")]) "D" rfl
  · exact c10_amended.2.1 (Json.obj [("mermaid", Json.str " D ")]) " D " rfl (by decide)
  · exact c10_amended.2.2.1 (Json.obj [("mermaid", Json.str "   ")]) "   " rfl rfl rfl
  · exact c10_amended.2.2.2 (Json.obj [("mermaid", Json.str "x")]) "x" rfl

/-- C8: an already-canonical structured payload `{text: T, mermaid: D}`
(with `D` non-empty and trimmed) round-trips through the structured item
scan unchanged. -/
theorem c8_roundtrip (T D : String) (hD : D ≠ "") (htrim : jsTrim D = D) :
    parseResponseV2 (structuredResp T D) = ⟨T, some D, structuredResp T D⟩ := by
  have hco : coerceV2 (Json.obj [("text", Json.str T), ("mermaid", Json.str D)]) =
      ⟨T, if jsTrim D ≠ "" then some (jsTrim D) else none⟩ := rfl
  have hscan : scanStructuredV2 (structuredResp T D) =
      some (coerceV2 (Json.obj [("text", Json.str T), ("mermaid", Json.str D)])) := rfl
  have hsome : scanStructuredV2 (structuredResp T D) = some ⟨T, some D⟩ := by
    rw [hscan, hco, htrim, if_pos hD]
  unfold parseResponseV2
  rw [hsome]

/-- C8, witness at `T := "T"`, `D := "D"`. -/
theorem c8_witness :
    parseResponseV2 (structuredResp "T" "D") = ⟨"T", some "D", structuredResp "T" "D"⟩ :=
  c8_roundtrip "T" "D" (by decide) (by decide)

/-- C1, counterexample: `respC1` has a first structured entry whose
coercion yields empty text and no diagram, and a second structured entry
whose coercion yields text `"hi"`; `parseResponseV2` nevertheless
returns the empty first coercion — the scan terminated on it instead of
trying later entries. -/
theorem c1_counterexample :
    parseResponseV2 respC1 = ⟨"", none, respC1⟩ ∧
    coerceV2 (Json.obj [("text", Json.str "hi")]) = ⟨"hi", none⟩ :=
  ⟨rfl, rfl⟩

/-- C1, amended: in `parseResponseV2` a native structured-JSON entry is
coerced and returned immediately *unconditionally* — even when the
coerced text is empty and no diagram was found, regardless of any later
entries; the conditional early return (skip an empty coercion and keep
scanning) is the behavior of the Azure variant's `parseResponse`
(part_001), which on the same input does reach the later `"hi"` entry. -/
theorem c1_structured_scan (payload : Json) (rest : List Json)
    (hobj : payload.isObjLike = true) :
    parseResponseV2 (respWith (msgOf [ojEntry payload] :: rest)) =
      ⟨(coerceV2 payload).text, (coerceV2 payload).mermaid,
        respWith (msgOf [ojEntry payload] :: rest)⟩ ∧
    parseResponseAzure respC1 = ⟨"hi", none, respC1⟩ := by
  constructor
  · have hred : scanEntryV2 (ojEntry payload) =
        (if payload.isObjLike = true then some (coerceV2 payload) else none) := rfl
    have hentry : scanEntryV2 (ojEntry payload) = some (coerceV2 payload) := by
      rw [hred, if_pos hobj]
    have hout : getOutputArray (respWith (msgOf [ojEntry payload] :: rest)) =
        msgOf [ojEntry payload] :: rest := rfl
    have hmc : msgContent (msgOf [ojEntry payload]) = [ojEntry payload] := rfl
    have hscan : scanStructuredV2 (respWith (msgOf [ojEntry payload] :: rest)) =
        some (coerceV2 payload) := by
      unfold scanStructuredV2
      rw [hout, List.findSome?_cons, hmc, List.findSome?_cons, hentry]
    unfold parseResponseV2
    rw [hscan]
  · rfl

/-- C1, witness for the amended claim at an empty-object payload with a
later non-empty entry present. -/
theorem c1_structured_scan_witness :
    parseResponseV2 (respWith (msgOf [ojEntry (Json.obj [])] ::
        [msgOf [ojEntry (Json.obj [("text", Json.str "hi")])]])) =
      ⟨"", none, respWith (msgOf [ojEntry (Json.obj [])] ::
        [msgOf [ojEntry (Json.obj [("text", Json.str "hi")])]])⟩ ∧
    parseResponseAzure respC1 = ⟨"hi", none, respC1⟩ :=
  c1_structured_scan (Json.obj []) [msgOf [ojEntry (Json.obj [("text", Json.str "hi")])]] rfl

theorem runToolLoop_zero (svc : ContinuationRequest → Json)
    (h? : Option (String → DocsResult)) (cur : Json) (acc : List ContinuationRequest) :
    runToolLoop svc h? 0 cur acc = .ok (cur, acc.reverse) := rfl

theorem runToolLoop_done (svc : ContinuationRequest → Json) (h : String → DocsResult)
    (n : Nat) (cur : Json) (acc : List ContinuationRequest)
    (hc : collectToolCalls cur = []) :
    runToolLoop svc (some h) (n + 1) cur acc = .ok (cur, acc.reverse) := by
  unfold runToolLoop
  rw [hc]

theorem runToolLoop_err (svc : ContinuationRequest → Json) (h : String → DocsResult)
    (n : Nat) (cur : Json) (acc : List ContinuationRequest) (c : ToolCall) (cs : List ToolCall)
    (hc : collectToolCalls cur = c :: cs) (ha : getResponseId cur = none) :
    runToolLoop svc (some h) (n + 1) cur acc =
      .error "Missing response.id when continuing tool calls" := by
  unfold runToolLoop
  rw [hc, ha]

theorem runToolLoop_step (svc : ContinuationRequest → Json) (h : String → DocsResult)
    (n : Nat) (cur : Json) (acc : List ContinuationRequest) (c : ToolCall) (cs : List ToolCall)
    (anchor : String) (hc : collectToolCalls cur = c :: cs)
    (ha : getResponseId cur = some anchor) :
    runToolLoop svc (some h) (n + 1) cur acc =
      runToolLoop svc (some h) n (svc ⟨anchor, roundItems h (c :: cs)⟩)
        (⟨anchor, roundItems h (c :: cs)⟩ :: acc) := by
  conv_lhs => rw [runToolLoop]
  rw [hc, ha]

theorem runToolLoop_trace (svc : ContinuationRequest → Json)
    (h? : Option (String → DocsResult)) :
    ∀ (n : Nat) (cur : Json) (acc : List ContinuationRequest) (f : Json)
      (reqs : List ContinuationRequest),
      runToolLoop svc h? n cur acc = .ok (f, reqs) →
      reqs.length ≤ n + acc.length ∧ ∃ t, reqs = acc.reverse ++ t := by
  intro n
  induction n with
  | zero =>
    intro cur acc f reqs h
    rw [runToolLoop_zero] at h
    simp at h
    rw [← h.2]
    refine ⟨?_, [], by simp⟩
    simp only [List.length_reverse]
    omega
  | succ n ih =>
    intro cur acc f reqs h
    cases h? with
    | none =>
      unfold runToolLoop at h
      simp at h
      rw [← h.2]
      refine ⟨?_, [], by simp⟩
      simp only [List.length_reverse]
      omega
    | some hd =>
      cases hc : collectToolCalls cur with
      | nil =>
        rw [runToolLoop_done svc hd n cur acc hc] at h
        simp at h
        rw [← h.2]
        refine ⟨?_, [], by simp⟩
        simp only [List.length_reverse]
        omega
      | cons c cs =>
        cases ha : getResponseId cur with
        | none =>
          rw [runToolLoop_err svc hd n cur acc c cs hc ha] at h
          simp at h
        | some anchor =>
          rw [runToolLoop_step svc hd n cur acc c cs anchor hc ha] at h
          obtain ⟨hlen, t, ht⟩ := ih _ _ _ _ h
          constructor
          · simp only [List.length_cons] at hlen
            omega
          · refine ⟨⟨anchor, roundItems hd (c :: cs)⟩ :: t, ?_⟩
            rw [ht, List.reverse_cons, List.append_assoc]
            rfl

theorem runToolLoop_typed (svc : ContinuationRequest → Json)
    (h? : Option (String → DocsResult)) :
    ∀ (n : Nat) (cur : Json) (acc : List ContinuationRequest) (f : Json)
      (reqs : List ContinuationRequest),
      (∀ q ∈ acc, ∀ it ∈ q.input, it.type = "function_call_output") →
      runToolLoop svc h? n cur acc = .ok (f, reqs) →
      ∀ q ∈ reqs, ∀ it ∈ q.input, it.type = "function_call_output" := by
  intro n
  induction n with
  | zero =>
    intro cur acc f reqs hacc h
    rw [runToolLoop_zero] at h
    simp at h
    rw [← h.2]
    intro q hq
    exact hacc q (List.mem_reverse.mp hq)
  | succ n ih =>
    intro cur acc f reqs hacc h
    cases h? with
    | none =>
      unfold runToolLoop at h
      simp at h
      rw [← h.2]
      intro q hq
      exact hacc q (List.mem_reverse.mp hq)
    | some hd =>
      cases hc : collectToolCalls cur with
      | nil =>
        rw [runToolLoop_done svc hd n cur acc hc] at h
        simp at h
        rw [← h.2]
        intro q hq
        exact hacc q (List.mem_reverse.mp hq)
      | cons c cs =>
        cases ha : getResponseId cur with
        | none =>
          rw [runToolLoop_err svc hd n cur acc c cs hc ha] at h
          simp at h
        | some anchor =>
          rw [runToolLoop_step svc hd n cur acc c cs anchor hc ha] at h
          refine ih _ _ _ _ ?_ h
          intro q hq
          rcases List.mem_cons.mp hq with hq1 | hq2
          · subst hq1
            intro it hit
            simp only [roundItems, List.mem_map] at hit
            obtain ⟨tc, _, rfl⟩ := hit
            rfl
          · exact hacc q hq2

theorem nestedAnchor_none {r0 : Json}
    (hnest : ∀ r s, r0.getField "response" = some r → getStr r "id" = some s → s = "") :
    nestedAnchor r0 = none := by
  unfold nestedAnchor
  split
  · rename_i r hr
    split
    · split
      · rename_i ri hri
        rw [if_neg (show ¬ri ≠ "" by simpa using hnest r ri hr hri)]
      · rfl
    · rfl
  · rfl

theorem anchor_none {r0 : Json}
    (hid : ∀ s, getStr r0 "id" = some s → s = "")
    (hnest : ∀ r s, r0.getField "response" = some r → getStr r "id" = some s → s = "") :
    getResponseId r0 = none := by
  unfold getResponseId
  split
  · rename_i i hi
    rw [if_neg (by simpa using hid i hi)]
    exact nestedAnchor_none hnest
  · exact nestedAnchor_none hnest

/-- C2: when tool calls are pending, a handler is supplied, and the prior
response carries neither a non-empty string `id` nor a non-empty nested
`response.id`, `chat` rejects with the continuation-anchor error — the
loop aborts instead of continuing, looping, or stopping silently. -/
theorem c2_missing_anchor (svc : ContinuationRequest → Json) (h : String → DocsResult)
    (r0 : Json)
    (hid : ∀ s, getStr r0 "id" = some s → s = "")
    (hnest : ∀ r s, r0.getField "response" = some r → getStr r "id" = some s → s = "")
    (hcalls : collectToolCalls r0 ≠ []) :
    chat svc (some h) r0 = .error "Missing response.id when continuing tool calls" := by
  obtain ⟨c, cs, hc⟩ := List.exists_cons_of_ne_nil hcalls
  have ha : getResponseId r0 = none := anchor_none hid hnest
  have e : runToolLoop svc (some h) 3 r0 [] =
      .error "Missing response.id when continuing tool calls" :=
    runToolLoop_err svc h 2 r0 [] c cs hc ha
  unfold chat
  rw [e]

/-- C2, witness: a response with one pending call and no anchor fields. -/
theorem c2_witness :
    chat svcQuiet (some docsHandlerEx) anchorlessResp =
      .error "Missing response.id when continuing tool calls" :=
  c2_missing_anchor svcQuiet docsHandlerEx anchorlessResp
    (fun s hs => by
      rw [show getStr anchorlessResp "id" = none from rfl] at hs
      cases hs)
    (fun r s hr _ => by
      rw [show anchorlessResp.getField "response" = none from rfl] at hr
      cases hr)
    (by decide)

/-- C3: the controller never issues more than 3 continuation requests,
and with pending tool calls (and anchors) on every round it performs
exactly 3 continuation rounds and returns the third continuation
response's parse result without error. -/
theorem c3_bounded_rounds (svc : ContinuationRequest → Json)
    (handler : Option (String → DocsResult)) (r0 : Json) :
    (∀ res qs, chat svc handler r0 = .ok (res, qs) → qs.length ≤ 3) ∧
    (∀ h, handler = some h → collectToolCalls r0 ≠ [] →
      (getResponseId r0).isSome = true →
      (∀ q, collectToolCalls (svc q) ≠ []) →
      (∀ q, (getResponseId (svc q)).isSome = true) →
      ∃ q1 q2 q3, chat svc handler r0 = .ok (parseResponseV2 (svc q3), [q1, q2, q3])) := by
  constructor
  · intro res qs h
    unfold chat at h
    cases hrun : runToolLoop svc handler 3 r0 [] with
    | error e => rw [hrun] at h; simp at h
    | ok p =>
      obtain ⟨f, reqs⟩ := p
      rw [hrun] at h
      simp at h
      obtain ⟨hlen, -⟩ := runToolLoop_trace svc handler 3 r0 [] f reqs hrun
      rw [← h.2]
      simpa using hlen
  · intro h hh hc0 hi0 hcs his
    subst hh
    obtain ⟨c0, cs0, hc0'⟩ := List.exists_cons_of_ne_nil hc0
    obtain ⟨a0, ha0⟩ := Option.isSome_iff_exists.mp hi0
    set q1 : ContinuationRequest := ⟨a0, roundItems h (c0 :: cs0)⟩ with hq1
    obtain ⟨c1, cs1, hc1⟩ := List.exists_cons_of_ne_nil (hcs q1)
    obtain ⟨a1, ha1⟩ := Option.isSome_iff_exists.mp (his q1)
    set q2 : ContinuationRequest := ⟨a1, roundItems h (c1 :: cs1)⟩ with hq2
    obtain ⟨c2, cs2, hc2⟩ := List.exists_cons_of_ne_nil (hcs q2)
    obtain ⟨a2, ha2⟩ := Option.isSome_iff_exists.mp (his q2)
    set q3 : ContinuationRequest := ⟨a2, roundItems h (c2 :: cs2)⟩ with hq3
    refine ⟨q1, q2, q3, ?_⟩
    have e1 : runToolLoop svc (some h) 3 r0 [] = runToolLoop svc (some h) 2 (svc q1) [q1] :=
      runToolLoop_step svc h 2 r0 [] c0 cs0 a0 hc0' ha0
    have e2 : runToolLoop svc (some h) 2 (svc q1) [q1] =
        runToolLoop svc (some h) 1 (svc q2) [q2, q1] :=
      runToolLoop_step svc h 1 (svc q1) [q1] c1 cs1 a1 hc1 ha1
    have e3 : runToolLoop svc (some h) 1 (svc q2) [q2, q1] =
        runToolLoop svc (some h) 0 (svc q3) [q3, q2, q1] :=
      runToolLoop_step svc h 0 (svc q2) [q2, q1] c2 cs2 a2 hc2 ha2
    unfold chat
    rw [e1, e2, e3, runToolLoop_zero]
    rfl

/-- C3, witness: a mock service that returns pending tool calls on every
round. -/
theorem c3_witness :
    ∃ q1 q2 q3, chat svcPending (some docsHandlerEx) pendingRespEx =
      .ok (parseResponseV2 (svcPending q3), [q1, q2, q3]) :=
  (c3_bounded_rounds svcPending (some docsHandlerEx) pendingRespEx).2 docsHandlerEx rfl
    (by decide) (by decide)
    (fun _ => show collectToolCalls pendingRespEx ≠ [] by decide)
    (fun _ => show (getResponseId pendingRespEx).isSome = true by decide)

/-- C5: in each tool round the continuation request's input is exactly
one tool-output item per detected tool call of the prior response —
pairing `callId` (`tc.call_id || tc.id`) with the JSON-encoded handler
result — and every item of every issued request is a
`function_call_output` (the original calls are never echoed back); in
particular the first issued request's input maps the initial response's
detected calls one-to-one. -/
theorem c5_tool_outputs (svc : ContinuationRequest → Json) (h : String → DocsResult) :
    (∀ (n : Nat) (cur : Json) (acc : List ContinuationRequest) (c : ToolCall)
      (cs : List ToolCall) (anchor : String),
      collectToolCalls cur = c :: cs → getResponseId cur = some anchor →
      runToolLoop svc (some h) (n + 1) cur acc =
        runToolLoop svc (some h) n
          (svc ⟨anchor, (collectToolCalls cur).map (toolOutputFor h)⟩)
          (⟨anchor, (collectToolCalls cur).map (toolOutputFor h)⟩ :: acc)) ∧
    (∀ (r0 : Json) (res : AssistantResult) (q : ContinuationRequest)
      (qs : List ContinuationRequest),
      chat svc (some h) r0 = .ok (res, q :: qs) →
      q.input = (collectToolCalls r0).map (toolOutputFor h) ∧
      (∀ req ∈ q :: qs, ∀ it ∈ req.input, it.type = "function_call_output")) := by
  constructor
  · intro n cur acc c cs anchor hc ha
    rw [hc]
    exact runToolLoop_step svc h n cur acc c cs anchor hc ha
  · intro r0 res q qs hrun
    unfold chat at hrun
    cases hloop : runToolLoop svc (some h) 3 r0 [] with
    | error e => rw [hloop] at hrun; simp at hrun
    | ok p =>
      obtain ⟨f, reqs⟩ := p
      rw [hloop] at hrun
      simp at hrun
      have hreqs : reqs = q :: qs := hrun.2
      subst hreqs
      constructor
      · cases hc : collectToolCalls r0 with
        | nil =>
          rw [runToolLoop_done svc h 2 r0 [] hc] at hloop
          simp at hloop
        | cons c cs =>
          cases ha : getResponseId r0 with
          | none =>
            rw [runToolLoop_err svc h 2 r0 [] c cs hc ha] at hloop
            simp at hloop
          | some a =>
            rw [runToolLoop_step svc h 2 r0 [] c cs a hc ha] at hloop
            obtain ⟨-, t, ht⟩ := runToolLoop_trace svc (some h) 2 _ _ _ _ hloop
            have hq : q = ⟨a, roundItems h (c :: cs)⟩ := by
              have h2 := ht
              simp at h2
              exact h2.1
            rw [hq]
            rfl
      · exact runToolLoop_typed svc (some h) 3 r0 [] f (q :: qs) (by simp) hloop

/-- C5, witness: the spec's concrete tool-loop example shape (one call
`call_1`, handler returning a document/locator pair). -/
theorem c5_witness :
    runToolLoop svcQuiet (some docsHandlerEx) 1 pendingRespEx [] =
      runToolLoop svcQuiet (some docsHandlerEx) 0 (svcQuiet reqEx) [reqEx] ∧
    (reqEx.input = (collectToolCalls pendingRespEx).map (toolOutputFor docsHandlerEx) ∧
      (∀ req ∈ [reqEx], ∀ it ∈ req.input, it.type = "function_call_output")) :=
  ⟨(c5_tool_outputs svcQuiet docsHandlerEx).1 0 pendingRespEx [] tcEx [] "resp_0"
      (by decide) (by decide),
   (c5_tool_outputs svcQuiet docsHandlerEx).2 pendingRespEx (parseResponseV2 quietRespEx)
      reqEx [] rfl⟩

/-- C9: a tool call whose arguments fail JSON parsing does not surface
any error: the empty argument object is substituted, the handler is
still invoked — with the empty-string topic — and the call still yields
its tool-output item in the continuation request. -/
theorem c9_malformed_args (svc : ContinuationRequest → Json) (h : String → DocsResult)
    (id name args anchor : String)
    (hargs : jsonParse args = none) (hid : id ≠ "") (hname : name ≠ "") (hanc : anchor ≠ "")
    (hsvc : ∀ q, collectToolCalls (svc q) = []) :
    chat svc (some h) (respWithId anchor [fnCallJson (some id) none name args]) =
      .ok (parseResponseV2
            (svc ⟨anchor, [⟨"function_call_output", id, stringifyDocs (h "")⟩]⟩),
        [⟨anchor, [⟨"function_call_output", id, stringifyDocs (h "")⟩]⟩]) := by
  set r0 := respWithId anchor [fnCallJson (some id) none name args] with hr0
  have htop : topToolCall (fnCallJson (some id) none name args) =
      (if (if id ≠ "" then id else "") ≠ "" ∧ name ≠ "" then
        some ⟨if id ≠ "" then id else "", name, args, if id ≠ "" then id else ""⟩
      else none) := rfl
  have htop2 : topToolCall (fnCallJson (some id) none name args) =
      some ⟨id, name, args, id⟩ := by
    rw [htop, if_pos hid]
    rw [if_pos ⟨hid, hname⟩]
  have hcalls : collectToolCalls r0 = [⟨id, name, args, id⟩] := by
    have hbase : collectToolCalls r0 =
        (match topToolCall (fnCallJson (some id) none name args) with
          | some tc => [tc]
          | none => []) ++ [] := rfl
    rw [hbase, htop2]
    rfl
  have hanchor : getResponseId r0 = some anchor := by
    have hbase : getResponseId r0 = (if anchor ≠ "" then some anchor else nestedAnchor r0) := rfl
    rw [hbase, if_pos hanc]
  have hkind : kindOf ⟨id, name, args, id⟩ = "" := by
    unfold kindOf safeParseJSON
    rw [hargs]
    rfl
  have hitems : roundItems h [⟨id, name, args, id⟩] =
      [⟨"function_call_output", id, stringifyDocs (h "")⟩] := by
    unfold roundItems toolOutputFor
    rw [List.map_cons, List.map_nil, hkind]
    simp [hid]
  have e1 : runToolLoop svc (some h) 3 r0 [] =
      runToolLoop svc (some h) 2
        (svc ⟨anchor, roundItems h [⟨id, name, args, id⟩]⟩)
        [⟨anchor, roundItems h [⟨id, name, args, id⟩]⟩] :=
    runToolLoop_step svc h 2 r0 [] ⟨id, name, args, id⟩ [] anchor hcalls hanchor
  rw [hitems] at e1
  have e2 : runToolLoop svc (some h) 2
      (svc ⟨anchor, [⟨"function_call_output", id, stringifyDocs (h "")⟩]⟩)
      [⟨anchor, [⟨"function_call_output", id, stringifyDocs (h "")⟩]⟩] =
      .ok (svc ⟨anchor, [⟨"function_call_output", id, stringifyDocs (h "")⟩]⟩,
        [⟨anchor, [⟨"function_call_output", id, stringifyDocs (h "")⟩]⟩]) := by
    have := runToolLoop_done svc h 1
      (svc ⟨anchor, [⟨"function_call_output", id, stringifyDocs (h "")⟩]⟩)
      [⟨anchor, [⟨"function_call_output", id, stringifyDocs (h "")⟩]⟩]
      (hsvc _)
    simpa using this
  unfold chat
  rw [e1, e2]

/-- C9, witness: arguments `"not json"` with a concrete handler. -/
theorem c9_witness :
    chat svcQuiet (some docsHandlerEx) malResp =
      .ok (parseResponseV2
            (svcQuiet ⟨"resp_0",
              [⟨"function_call_output", "call_1", stringifyDocs (docsHandlerEx "")⟩]⟩),
        [⟨"resp_0", [⟨"function_call_output", "call_1",
            stringifyDocs (docsHandlerEx "")⟩]⟩]) :=
  c9_malformed_args svcQuiet docsHandlerEx "call_1" "get_docs" "not json" "resp_0"
    rfl (by decide) (by decide) (by decide)
    (fun _ => show collectToolCalls quietRespEx = [] by decide)

/-- C6: evaluation at the failing input.  The generic-fence keyword test
lowercases the head token but the keyword list carries the mixed-case
literal `stateDiagram-v2`, so a generic fence opening with
`stateDiagram-v2` (in any casing) is never recognized, while the other
keywords do match case-insensitively (e.g. `FLOWCHART`). -/
theorem c6_generic_fence_eval :
    extractMermaid "```stateDiagram-v2\nA --> B```" = none ∧
    extractMermaid "```STATEDIAGRAM-V2\nA --> B```" = none ∧
    isLikelyMermaid "stateDiagram-v2\nA --> B" = false ∧
    extractMermaid "```FLOWCHART TD\nA-->B```" = some "FLOWCHART TD\nA-->B" ∧
    isLikelyMermaid "GaNtT x" = true :=
  ⟨by decide, by decide, by decide, by decide, by decide⟩

theorem topToolCall_some {i : Json} {tc : ToolCall} (h : topToolCall i = some tc) :
    tc.id ≠ "" ∧ tc.name ≠ "" := by
  simp only [topToolCall] at h
  split at h
  · rename_i hguard
    cases Option.some.inj h
    exact hguard
  · exact absurd h (by simp)

theorem nestedToolCall_some {cc : Json} {tc : ToolCall} (h : nestedToolCall cc = some tc) :
    tc.id ≠ "" ∧ tc.name ≠ "" := by
  simp only [nestedToolCall] at h
  split at h
  · split at h
    · rename_i hguard
      cases Option.some.inj h
      exact hguard
    · exact absurd h (by simp)
  · exact absurd h (by simp)

theorem collectToolCalls_mem {j : Json} {tc : ToolCall} (h : tc ∈ collectToolCalls j) :
    tc.id ≠ "" ∧ tc.name ≠ "" := by
  unfold collectToolCalls at h
  rw [List.mem_flatten] at h
  obtain ⟨l, hl, htc⟩ := h
  rw [List.mem_map] at hl
  obtain ⟨i, -, rfl⟩ := hl
  unfold collectFromItem at htc
  split at htc
  · split at htc
    · rename_i tc' heq
      rw [List.mem_singleton] at htc
      subst htc
      exact topToolCall_some heq
    · simp at htc
  · rw [List.mem_filterMap] at htc
    obtain ⟨cc, -, hcc⟩ := htc
    exact nestedToolCall_some hcc


theorem scanEntriesE_agree :
    ∀ l : List Json, (∀ cc ∈ l, cc.isNull = false) →
      scanEntriesE l = some (l.findSome? scanEntryV2) := by
  intro l
  induction l with
  | nil => intro _; rfl
  | cons cc rest ih =>
    intro h
    have hcc : cc.isNull = false := h cc (List.mem_cons_self cc rest)
    unfold scanEntriesE
    rw [hcc, if_neg (by simp), List.findSome?_cons]
    rcases hs : scanEntryV2 cc with _ | p
    · exact ih (fun c hm => h c (List.mem_cons_of_mem _ hm))
    · rfl

theorem scanItemsE_agree :
    ∀ l : List Json, (∀ i ∈ l, itemNullFree i = true) →
      scanItemsE l = some (l.findSome? (fun i => (msgContent i).findSome? scanEntryV2)) := by
  intro l
  induction l with
  | nil => intro _; rfl
  | cons i rest ih =>
    intro h
    have hi := h i (List.mem_cons_self i rest)
    simp only [itemNullFree, Bool.and_eq_true, Bool.not_eq_true', List.all_eq_true] at hi
    unfold scanItemsE
    rw [hi.1, if_neg (by simp)]
    rw [scanEntriesE_agree (msgContent i) (fun cc hm => by simpa using hi.2 cc hm)]
    rw [List.findSome?_cons]
    rcases hs : (msgContent i).findSome? scanEntryV2 with _ | p
    · exact ih (fun i' hm => h i' (List.mem_cons_of_mem _ hm))
    · rfl

theorem parseResponseV2E_agree (o : Json) (h : respNullFree o = true) :
    parseResponseV2E o = some (parseResponseV2 o) := by
  simp only [respNullFree, Bool.and_eq_true, Bool.not_eq_true', List.all_eq_true] at h
  unfold parseResponseV2E parseResponseV2 scanStructuredV2
  rw [h.1, if_neg (by simp)]
  rw [scanItemsE_agree (getOutputArray o) (fun i hm => h.2 i hm)]
  rcases hs : (getOutputArray o).findSome? (fun i => (msgContent i).findSome? scanEntryV2)
    with _ | p
  · dsimp only
    split
    · split
      all_goals rfl
    · split
      all_goals rfl
  · rfl

/-- C4, counterexample: the parser is not total — a null root (the
`o.output` access), a null output item (the `i.type` access) and a null
message-content entry (the `cc.type` access) each make `parseResponseV2`
throw a TypeError instead of returning an `AssistantResult`. -/
theorem c4_counterexample :
    parseResponseV2E Json.null = none ∧
    parseResponseV2E (respWith [Json.null]) = none ∧
    parseResponseV2E (respWith [msgOf [Json.null]]) = none :=
  ⟨rfl, rfl, rfl⟩

/-- C4, amended: whenever the parser completes it returns an
`AssistantResult` whose `raw` is the original response; it is total on
every response whose root, output items and message-content entries are
non-null — there, including absent or otherwise malformed fields, it
agrees with the no-throw model `parseResponseV2`, and a response with
no output collection and no aggregated text degrades to empty text and
an absent diagram; but a null root, output item, or content entry the
scan reaches makes it throw a TypeError (see the counterexample). -/
theorem c4_total_amended :
    (∀ (j : Json) (r : AssistantResult), parseResponseV2E j = some r → r.raw = j) ∧
    (∀ j : Json, respNullFree j = true → parseResponseV2E j = some (parseResponseV2 j)) ∧
    (∀ j : Json, j.isNull = false → j.getField "output" = none →
      j.getField "output_text" = none → parseResponseV2E j = some ⟨"", none, j⟩) := by
  refine ⟨?_, fun j h => parseResponseV2E_agree j h, ?_⟩
  · intro j r h
    unfold parseResponseV2E at h
    split at h
    · simp at h
    · split at h
      · simp at h
      · cases Option.some.inj h
        rfl
      · dsimp only at h
        split at h
        · split at h
          · cases Option.some.inj h
            rfl
          · cases Option.some.inj h
            rfl
        · split at h
          · cases Option.some.inj h
            rfl
          · cases Option.some.inj h
            rfl
  · intro j hnull hout hagg
    have h1 : getOutputArray j = [] := by unfold getOutputArray; rw [hout]
    have h2 : getStr j "output_text" = none := by unfold getStr; rw [hagg]
    have hchunks : textChunks j = "" := by unfold textChunks; rw [h1]; rfl
    unfold parseResponseV2E
    rw [hnull, if_neg (by simp), h1, h2, hchunks]
    simp [scanItemsE, safeParseV2, extractMermaid]

/-- C4, witness for the amended claim at concrete inputs. -/
theorem c4_total_amended_witness :
    (AssistantResult.mk "" none (Json.obj [])).raw = Json.obj [] ∧
    parseResponseV2E (structuredResp "T" "D") = some (parseResponseV2 (structuredResp "T" "D")) ∧
    parseResponseV2E (Json.obj []) = some ⟨"", none, Json.obj []⟩ :=
  ⟨c4_total_amended.1 (Json.obj []) ⟨"", none, Json.obj []⟩ rfl,
   c4_total_amended.2.1 (structuredResp "T" "D") (by decide),
   c4_total_amended.2.2 (Json.obj []) rfl rfl rfl⟩

theorem collectEntriesE_eq :
    ∀ (l : List Json) (r : List ToolCall), collectEntriesE l = some r →
      r = l.filterMap nestedToolCall := by
  intro l
  induction l with
  | nil =>
    intro r h
    cases Option.some.inj h
    rfl
  | cons cc rest ih =>
    intro r h
    unfold collectEntriesE at h
    split at h
    · simp at h
    · split at h
      · rename_i l' heq
        cases Option.some.inj h
        rw [List.filterMap_cons]
        rcases hn : nestedToolCall cc with _ | tc
        · simpa using ih l' heq
        · simpa using ih l' heq
      · simp at h

theorem collectItemsE_eq :
    ∀ (l : List Json) (r : List ToolCall), collectItemsE l = some r →
      r = (l.map collectFromItem).flatten := by
  intro l
  induction l with
  | nil =>
    intro r h
    cases Option.some.inj h
    rfl
  | cons i rest ih =>
    intro r h
    unfold collectItemsE at h
    split at h
    · simp at h
    · dsimp only at h
      split at h
      · rename_i a b ha hb
        cases Option.some.inj h
        rw [List.map_cons, List.flatten_cons, ← ih b hb]
        congr 1
        unfold collectFromItem
        by_cases ht : typeIs i "function_call" = true
        · rw [if_pos ht] at ha
          rw [if_pos ht]
          exact (Option.some.inj ha).symm
        · rw [if_neg ht] at ha
          rw [if_neg ht]
          exact collectEntriesE_eq _ a ha
      · simp at h

theorem collectToolCallsE_eq {j : Json} {l : List ToolCall}
    (h : collectToolCallsE j = some l) : l = collectToolCalls j := by
  unfold collectToolCallsE at h
  split at h
  · simp at h
  · exact collectItemsE_eq _ l h

theorem collectEntriesE_agree :
    ∀ l : List Json, (∀ cc ∈ l, cc.isNull = false) →
      collectEntriesE l = some (l.filterMap nestedToolCall) := by
  intro l
  induction l with
  | nil => intro _; rfl
  | cons cc rest ih =>
    intro h
    have hcc : cc.isNull = false := h cc (List.mem_cons_self cc rest)
    unfold collectEntriesE
    rw [hcc, if_neg (by simp)]
    rw [ih (fun c hm => h c (List.mem_cons_of_mem _ hm)), List.filterMap_cons]
    rcases hn : nestedToolCall cc with _ | tc
    · simp
    · simp

theorem collectItemsE_agree :
    ∀ l : List Json, (∀ i ∈ l, itemNullFree i = true) →
      collectItemsE l = some ((l.map collectFromItem).flatten) := by
  intro l
  induction l with
  | nil => intro _; rfl
  | cons i rest ih =>
    intro h
    have hi := h i (List.mem_cons_self i rest)
    simp only [itemNullFree, Bool.and_eq_true, Bool.not_eq_true', List.all_eq_true] at hi
    unfold collectItemsE
    rw [hi.1, if_neg (by simp)]
    dsimp only
    rw [ih (fun i' hm => h i' (List.mem_cons_of_mem _ hm))]
    rw [List.map_cons, List.flatten_cons]
    by_cases ht : typeIs i "function_call" = true
    · rw [if_pos ht]
      rw [show collectFromItem i =
          (match topToolCall i with | some tc => [tc] | none => []) from by
        unfold collectFromItem; rw [if_pos ht]]
    · rw [if_neg ht]
      rw [collectEntriesE_agree (msgContent i) (fun cc hm => by simpa using hi.2 cc hm)]
      rw [show collectFromItem i = (msgContent i).filterMap nestedToolCall from by
        unfold collectFromItem; rw [if_neg ht]]

theorem collectToolCallsE_agree {j : Json} (h : respNullFree j = true) :
    collectToolCallsE j = some (collectToolCalls j) := by
  simp only [respNullFree, Bool.and_eq_true, Bool.not_eq_true', List.all_eq_true] at h
  unfold collectToolCallsE collectToolCalls
  rw [h.1, if_neg (by simp)]
  exact collectItemsE_agree _ (fun i hm => h.2 i hm)

/-- C7, counterexample: the detector is not never-failing — a null root
(the `o.output` access), a null output item (the `i.type` access) and a
null message-content entry (the `cc.type` access) each make
`collectToolCalls` throw a TypeError instead of returning a record
sequence. -/
theorem c7_counterexample :
    collectToolCallsE Json.null = none ∧
    collectToolCallsE (respWith [Json.null, callItemEx]) = none ∧
    collectToolCallsE (respWith [msgOf [Json.null]]) = none :=
  ⟨rfl, rfl, rfl⟩

/-- C7, amended: on every response whose root, output items and
message-content entries are non-null the detector never fails and is
the in-order scan (so for a non-null root an absent or non-array output
collection yields the empty sequence); whenever detection completes,
every record has non-empty id and name (empty-id or empty-name calls
are dropped silently), top-level function-call items prefer `call_id`
and fall back to `id` (also when `call_id` is present but empty), and
discovery order is kept with no deduplication; but a null root, output
item, or content entry makes detection throw a TypeError (see the
counterexample). -/
theorem c7_collect_amended :
    (∀ j : Json, respNullFree j = true → collectToolCallsE j = some (collectToolCalls j)) ∧
    (∀ j : Json, j.isNull = false → j.getField "output" = none →
      collectToolCallsE j = some []) ∧
    (∀ j v : Json, j.isNull = false → j.getField "output" = some v →
      (∀ xs, v ≠ Json.arr xs) → collectToolCallsE j = some []) ∧
    (∀ (j : Json) (l : List ToolCall) (tc : ToolCall), collectToolCallsE j = some l →
      tc ∈ l → tc.id ≠ "" ∧ tc.name ≠ "") ∧
    (∀ c g n a : String, c ≠ "" → n ≠ "" →
      collectToolCallsE (respWith [fnCallJson (some c) (some g) n a]) = some [⟨c, n, a, c⟩]) ∧
    (∀ g n a : String, g ≠ "" → n ≠ "" →
      collectToolCallsE (respWith [fnCallJson none (some g) n a]) = some [⟨g, n, a, g⟩]) ∧
    (∀ g n a : String, g ≠ "" → n ≠ "" →
      collectToolCallsE (respWith [fnCallJson (some "") (some g) n a]) = some [⟨g, n, a, g⟩]) ∧
    (∀ c a : String, collectToolCallsE (respWith [fnCallJson (some c) none "" a]) = some []) ∧
    (∀ n a : String, collectToolCallsE (respWith [fnCallJson none none n a]) = some []) ∧
    collectToolCallsE (respWith [callItemEx, callItemEx]) = some [tcEx, tcEx] := by
  refine ⟨fun j h => collectToolCallsE_agree h, ?_, ?_, ?_, ?_, ?_, ?_, ?_, ?_, rfl⟩
  · intro j hnull hout
    unfold collectToolCallsE getOutputArray
    rw [hnull, if_neg (by simp), hout]
    rfl
  · intro j v hnull hv hne
    unfold collectToolCallsE getOutputArray
    rw [hnull, if_neg (by simp), hv]
    cases v
    case arr xs => exact absurd rfl (hne xs)
    all_goals rfl
  · intro j l tc hE hm
    have he := collectToolCallsE_eq hE
    exact collectToolCalls_mem (he ▸ hm)
  · intro c g n a hc hn
    have hbase : collectToolCallsE (respWith [fnCallJson (some c) (some g) n a]) =
        some ((match topToolCall (fnCallJson (some c) (some g) n a) with
          | some tc => [tc]
          | none => []) ++ []) := rfl
    have htop : topToolCall (fnCallJson (some c) (some g) n a) =
        (if (if c ≠ "" then c else g) ≠ "" ∧ n ≠ "" then
          some ⟨if c ≠ "" then c else g, n, a, if c ≠ "" then c else g⟩
        else none) := rfl
    rw [hbase, htop, if_pos hc]
    rw [if_pos ⟨hc, hn⟩]
    rfl
  · intro g n a hg hn
    have hbase : collectToolCallsE (respWith [fnCallJson none (some g) n a]) =
        some ((match topToolCall (fnCallJson none (some g) n a) with
          | some tc => [tc]
          | none => []) ++ []) := rfl
    have htop : topToolCall (fnCallJson none (some g) n a) =
        (if g ≠ "" ∧ n ≠ "" then some ⟨g, n, a, g⟩ else none) := rfl
    rw [hbase, htop, if_pos ⟨hg, hn⟩]
    rfl
  · intro g n a hg hn
    have hbase : collectToolCallsE (respWith [fnCallJson (some "") (some g) n a]) =
        some ((match topToolCall (fnCallJson (some "") (some g) n a) with
          | some tc => [tc]
          | none => []) ++ []) := rfl
    have htop : topToolCall (fnCallJson (some "") (some g) n a) =
        (if g ≠ "" ∧ n ≠ "" then some ⟨g, n, a, g⟩ else none) := rfl
    rw [hbase, htop, if_pos ⟨hg, hn⟩]
    rfl
  · intro c a
    have hbase : collectToolCallsE (respWith [fnCallJson (some c) none "" a]) =
        some ((match topToolCall (fnCallJson (some c) none "" a) with
          | some tc => [tc]
          | none => []) ++ []) := rfl
    have htop : topToolCall (fnCallJson (some c) none "" a) =
        (if (if c ≠ "" then c else "") ≠ "" ∧ "" ≠ "" then
          some ⟨if c ≠ "" then c else "", "", a, if c ≠ "" then c else ""⟩
        else none) := rfl
    rw [hbase, htop, if_neg (fun hcon => hcon.2 rfl)]
    rfl
  · intro n a
    have hbase : collectToolCallsE (respWith [fnCallJson none none n a]) =
        some ((match topToolCall (fnCallJson none none n a) with
          | some tc => [tc]
          | none => []) ++ []) := rfl
    have htop : topToolCall (fnCallJson none none n a) =
        (if "" ≠ "" ∧ n ≠ "" then some ⟨"", n, a, ""⟩ else none) := rfl
    rw [hbase, htop, if_neg (fun hcon => hcon.1 rfl)]
    rfl

/-- C7, witness for the amended claim at concrete inputs. -/
theorem c7_collect_amended_witness :
    collectToolCallsE quietRespEx = some (collectToolCalls quietRespEx) ∧
    collectToolCallsE (Json.obj []) = some [] ∧
    collectToolCallsE (respWith [fnCallJson (some "call_1") (some "g_1") "get_docs" "x"]) =
      some [⟨"call_1", "get_docs", "x", "call_1"⟩] ∧
    collectToolCallsE (respWith [fnCallJson none (some "g_1") "get_docs" "x"]) =
      some [⟨"g_1", "get_docs", "x", "g_1"⟩] ∧
    collectToolCallsE (respWith [fnCallJson (some "call_1") none "" "x"]) = some [] :=
  ⟨c7_collect_amended.1 quietRespEx (by decide),
   c7_collect_amended.2.1 (Json.obj []) rfl rfl,
   c7_collect_amended.2.2.2.2.1 "call_1" "g_1" "get_docs" "x" (by decide) (by decide),
   c7_collect_amended.2.2.2.2.2.1 "g_1" "get_docs" "x" (by decide) (by decide),
   c7_collect_amended.2.2.2.2.2.2.2.1 "call_1" "x"⟩
